import Mathlib

/-!
Verification of the deal-aggregation engine of the broker-performance
dashboard (Next.js/TypeScript source). The relevant calculation code is
shallowly embedded below: each Lean definition mirrors one function or
`useMemo` block of the source, with JavaScript objects modelled as
association lists (preserving insertion order, as `Object.entries` does
for string keys), JS numbers as exact rationals, nullable fields as
`Option`, and ISO date strings as either structured calendar dates or
epoch-day integers where the source does date arithmetic.
-/

namespace BrokerAnalysis

/-- Calendar date `(y, m, d)` as parsed from an ISO `YYYY-MM-DD` string. -/
structure CDate where
  y : Int
  m : Int
  d : Int
deriving DecidableEq, Repr

/-- A deal record, from the `Deal` interface of
`src/app/other-information/broker-performance-analysis/page.tsx`.
Pipeline-stage fields keep the source order: `stage1Application` embeds
`"1. Application"`, …, `stage6Settled` embeds `"6. Settled"`;
`settlement2025`/`settlement2024` embed `"2025 Settlement"`/`"2024 Settlement"`;
`fromRednote` embeds `"From Rednote?"`. `latest_date` is `null` or an
ISO date. -/
structure Deal where
  deal_id : String
  deal_name : String
  broker_name : String
  deal_value : ℚ
  stage1Application : Option String
  stage2Assessment : Option String
  stage3Approval : Option String
  stage4LoanDocument : Option String
  stage5SettlementQueue : Option String
  stage6Settled : Option String
  settlement2025 : Option String
  settlement2024 : Option String
  status : String
  latest_date : Option CDate
  fromRednote : String
deriving DecidableEq, Repr

/-- Whitespace as stripped by JS `String.prototype.trim` (the ASCII
subset relevant to these data files). -/
def isWsChar (c : Char) : Bool :=
  c = ' ' || c = '\t' || c = '\n' || c = '\r'

/-- Structural embedding of JS `s.trim()`: drop leading and trailing
whitespace. -/
def jsTrim (s : String) : String :=
  ⟨((s.data.dropWhile isWsChar).reverse.dropWhile isWsChar).reverse⟩

/-- The JS test `field && field.trim() !== ""` on a nullable string field:
truthy (non-null, non-empty) and non-empty after trimming. -/
def nonEmptyTrim : Option String → Bool
  | none => false
  | some s => s != "" && jsTrim s != ""

/-- `deal["6. Settled"] && deal["6. Settled"].trim() !== ""`. -/
def isSettled (d : Deal) : Bool := nonEmptyTrim d.stage6Settled

/-- The `isConverted` disjunction of the source (any stage beyond enquiry,
including the two settlement-year flags). -/
def isConverted (d : Deal) : Bool :=
  nonEmptyTrim d.stage1Application ||
  nonEmptyTrim d.stage2Assessment ||
  nonEmptyTrim d.stage3Approval ||
  nonEmptyTrim d.stage4LoanDocument ||
  nonEmptyTrim d.stage5SettlementQueue ||
  nonEmptyTrim d.stage6Settled ||
  nonEmptyTrim d.settlement2025 ||
  nonEmptyTrim d.settlement2024

/-- Accumulator held per broker inside the `reduce` of `brokerPerformance`
(`{ deals, settled, settledValue, converted }`). -/
structure BrokerStats where
  deals : List Deal
  settled : Nat
  settledValue : ℚ
  converted : Nat
deriving Repr

def emptyStats : BrokerStats := ⟨[], 0, 0, 0⟩

/-- One step of the `reduce` body: push the deal and bump the settled /
settled-value / converted accumulators. `deal.deal_value || 0` is just
`deal_value` here since the field is a total rational. -/
def updateStats (s : BrokerStats) (d : Deal) : BrokerStats :=
  { deals := s.deals ++ [d]
    settled := s.settled + (if isSettled d then 1 else 0)
    settledValue := s.settledValue + (if isSettled d then d.deal_value else 0)
    converted := s.converted + (if isConverted d then 1 else 0) }

/-- Insert one deal into the accumulator object keyed by `broker_name`,
creating the key on first occurrence (JS object insertion order kept). -/
def insertDeal : List (String × BrokerStats) → Deal → List (String × BrokerStats)
  | [], d => [(d.broker_name, updateStats emptyStats d)]
  | (k, s) :: rest, d =>
    if k = d.broker_name then (k, updateStats s d) :: rest
    else (k, s) :: insertDeal rest d

/-- The `reduce` of `brokerPerformance`: group deals by `broker_name`. -/
def brokerStats (deals : List Deal) : List (String × BrokerStats) :=
  deals.foldl insertDeal []

/-- The derived `BrokerPerformance` record of the source. -/
structure BrokerPerformance where
  brokerName : String
  totalDeals : Nat
  settledDeals : Nat
  settledRate : ℚ
  settledValue : ℚ
  avgDealValue : ℚ
  conversionRate : ℚ
  convertedDeals : Nat
deriving DecidableEq, Repr

/-- The `Object.entries(brokerStats).map` body: derive counts and rates,
guarding each division by a positivity test on its denominator. -/
def mkPerformance (k : String) (s : BrokerStats) : BrokerPerformance :=
  let totalDeals := s.deals.length
  { brokerName := k
    totalDeals := totalDeals
    settledDeals := s.settled
    settledRate := if 0 < totalDeals then ((s.settled : ℚ) / totalDeals) * 100 else 0
    settledValue := s.settledValue
    avgDealValue := if 0 < s.settled then s.settledValue / (s.settled : ℚ) else 0
    conversionRate := if 0 < totalDeals then ((s.converted : ℚ) / totalDeals) * 100 else 0
    convertedDeals := s.converted }

/-- `selectedMode`. -/
inductive Mode
  | settled
  | conversion
deriving DecidableEq, Repr

/-- Sort key selected by the comparator
`selectedMode === 'settled' ? b.settledValue - a.settledValue : b.conversionRate - a.conversionRate`. -/
def perfKey (mode : Mode) (p : BrokerPerformance) : ℚ :=
  match mode with
  | .settled => p.settledValue
  | .conversion => p.conversionRate

/-- `a` may precede `b` under the descending comparator. -/
def perfDesc (mode : Mode) (a b : BrokerPerformance) : Bool :=
  perfKey mode b ≤ perfKey mode a

/-- `brokerPerformance` from
`src/app/other-information/broker-performance-analysis/page.tsx` lines
219–277: early-return `[]` on empty input, group by broker, derive the
records, and sort descending by the mode's key (JS `Array.sort` is a
stable sort; `mergeSort` mirrors that). -/
def brokerPerformance (deals : List Deal) (mode : Mode) : List BrokerPerformance :=
  if deals = [] then []
  else ((brokerStats deals).map (fun p => mkPerformance p.1 p.2)).mergeSort (perfDesc mode)

/-- `filteredBrokers` (lines 279–281): keep brokers with
`totalDeals >= minDealsThreshold`. -/
def filterByMinimumDeals (ps : List BrokerPerformance) (minDeals : Nat) :
    List BrokerPerformance :=
  ps.filter (fun b => minDeals ≤ b.totalDeals)

/-! ### Date arithmetic

The source parses ISO `YYYY-MM-DD` strings into JS `Date` objects and
does day-granular arithmetic on them. The embedding represents such a
parsed date by its epoch-day number (days since 1970-01-01); the
conversion from a calendar date is the standard civil-from-days inverse
(Howard Hinnant's algorithm), and JS `getDay` becomes arithmetic modulo
7 anchored at Thursday = 1970-01-01. -/

/-- Epoch-day number of a calendar date. -/
def daysFromCivil (c : CDate) : Int :=
  let y2 := if c.m ≤ 2 then c.y - 1 else c.y
  let era := (if 0 ≤ y2 then y2 else y2 - 399) / 400
  let yoe := y2 - era * 400
  let mp := (c.m + 9) % 12
  let doy := (153 * mp + 2) / 5 + c.d - 1
  let doe := yoe * 365 + yoe / 4 - yoe / 100 + doy
  era * 146097 + doe - 719468

/-- JS `Date.prototype.getDay` on an epoch-day number
(0 = Sunday, …, 6 = Saturday; 1970-01-01 was a Thursday). -/
def jsGetDay (n : Int) : Int := (n + 4) % 7

/-- The week-start computation of the `weeklyGroups` reduce (page.tsx
lines 339–344): `diff = getDate() − day + (day === 0 ? −6 : 1)`, i.e.
move back to the Monday of the ISO week. -/
def weekStart (n : Int) : Int :=
  n - jsGetDay n + (if jsGetDay n = 0 then -6 else 1)

/-- Week bucket key of a deal: the Monday starting the ISO week of
`latest_date` (deals with null `latest_date` are skipped by the reduce). -/
def dealWeekKey (d : Deal) : Option Int :=
  match d.latest_date with
  | none => none
  | some c => some (weekStart (daysFromCivil c))

/-! ### Rolling-window statistics -/

/-- `dateValueMap[dateStr] || 0`: look a day up in the date-count object
(dates as epoch days). -/
def lookupCount (m : List (Int × ℚ)) (d : Int) : ℚ :=
  match m.find? (fun p => p.1 == d) with
  | some p => p.2
  | none => 0

/-- The day objects visited by the JS loop
`for (let d = new Date(lo); d <= hi; d.setDate(d.getDate() + 1))`:
every calendar day from `lo` to `hi` inclusive (none when `lo > hi`). -/
def windowDays (lo hi : Int) : List Int :=
  (List.range (hi + 1 - lo).toNat).map (fun (i : Nat) => lo + (i : Int))

/-- `calculate30DayRollingSum` from the sample-data lead-sources page
(`src/unnamed/part_000` lines 83–100), the "full-window" variant: walk
every calendar day in `[targetDate − 30, targetDate]`, summing
`dateValueMap[day] || 0` and incrementing `dayCount` per iteration;
return `sum / 30` when `dayCount >= 30` and `null` otherwise. -/
def calculate30DayRollingSum (dateValueMap : List (Int × ℚ))
    (targetDate : Int) : Option ℚ :=
  let window := windowDays (targetDate - 30) targetDate
  let sum := window.foldl (fun s d => s + lookupCount dateValueMap d) 0
  let dayCount := window.length
  if 30 ≤ dayCount then some (sum / 30) else none

/-- `calculate30DayRollingAvg` (page.tsx lines 1373–1393), the
"fixed-divisor" variant: return `0` when no dates exist at all;
otherwise sum the counts of the map entries whose date lies in
`[targetDate − 30 days, targetDate]` inclusive and divide by 30. -/
def calculate30DayRollingAvg (dateValueMap : List (Int × ℚ))
    (targetDate : Int) (allAvailableDates : List Int) : ℚ :=
  let thirtyDaysBefore := targetDate - 30
  if allAvailableDates.length = 0 then 0
  else
    (dateValueMap.foldl
      (fun s p =>
        if thirtyDaysBefore ≤ p.1 ∧ p.1 ≤ targetDate then s + p.2 else s)
      0) / 30

/-- Spec-side description of the fixed-divisor window sum: "sum all
counts whose date falls in `[targetDate − windowDays, targetDate]`
inclusive". -/
def windowSumSpec (m : List (Int × ℚ)) (t : Int) : ℚ :=
  ((m.filter (fun p => decide (t - 30 ≤ p.1 ∧ p.1 ≤ t))).map
    (fun p => p.2)).sum

/-! ### Date-bucketed distinct counting (lead-sources chart data) -/

/-- Deal record of the lead-sources page variants (the `Deal` interface
of `src/unnamed/part_000` and of the second component in page.tsx):
date fields are the raw ISO strings used directly as bucket keys.
`lostDate` embeds `"Lost date"`, `fromRednote`/`fromLifeX` embed
`"From Rednote?"`/`"From LifeX?"`. -/
structure LDeal where
  deal_id : String
  deal_name : String
  broker_name : String
  status : String
  deal_value : ℚ
  fromRednote : String
  fromLifeX : String
  lostDate : String
  created_date : String
  latest_date : Option String
deriving DecidableEq, Repr

/-- JS `deal.latest_date || deal.created_date` (null and the empty
string are falsy). -/
def bucketDate (d : LDeal) : String :=
  match d.latest_date with
  | some s => if s = "" then d.created_date else s
  | none => d.created_date

/-- JS `Set.prototype.add`: insert an id if not already present. -/
def insertIdOnce (ids : List String) (id : String) : List String :=
  if id ∈ ids then ids else ids ++ [id]

/-- `acc[date] = acc[date] || new Set(); acc[date].add(deal.deal_id)` on
the object keyed by date (insertion order kept). -/
def addToDateSet : List (String × List String) → String → String →
    List (String × List String)
  | [], date, id => [(date, [id])]
  | (k, ids) :: rest, date, id =>
    if k = date then (k, insertIdOnce ids id) :: rest
    else (k, ids) :: addToDateSet rest date id

/-- The `settledByDate` reduce of the uploaded-data lead-sources
component (page.tsx lines 1400–1411): filter to `status === "6. Settled"`,
then per non-empty bucket date collect the Set of deal ids. -/
def settledByDate (deals : List LDeal) : List (String × List String) :=
  (deals.filter (fun d => d.status == "6. Settled")).foldl
    (fun acc d =>
      let date := bucketDate d
      if date ≠ "" ∧ jsTrim date ≠ "" then addToDateSet acc date d.deal_id
      else acc)
    []

/-- `settledCountByDate` (page.tsx lines 1414–1417): Set sizes. -/
def settledCountByDate (deals : List LDeal) : List (String × Nat) :=
  (settledByDate deals).map (fun p => (p.1, p.2.length))

/-- `acc[date] = (acc[date] || 0) + 1` on the object keyed by date. -/
def bumpCount : List (String × Nat) → String → List (String × Nat)
  | [], date => [(date, 1)]
  | (k, n) :: rest, date =>
    if k = date then (k, n + 1) :: rest
    else (k, n) :: bumpCount rest date

/-- The `settledByDate` reduce of the sample-data lead-sources page
(`src/unnamed/part_000` lines 114–121): filter to
`status === "6. Settled"`, then count RAW ROWS per `created_date`. -/
def settledByDateRaw (deals : List LDeal) : List (String × Nat) :=
  (deals.filter (fun d => d.status == "6. Settled")).foldl
    (fun acc d => bumpCount acc d.created_date) []

/-- Look a date's entry up in an association list, with default. -/
def lookupIds (acc : List (String × List String)) (dt : String) :
    List String :=
  match acc.find? (fun p => p.1 == dt) with
  | some p => p.2
  | none => []

/-- Look a date's count up in an association list, `0` when absent. -/
def lookupNat (acc : List (String × Nat)) (dt : String) : Nat :=
  match acc.find? (fun p => p.1 == dt) with
  | some p => p.2
  | none => 0

/-- The rows of the settled filter that land in bucket `dt` (status
settled and non-empty bucket date `dt`). -/
def settledRowsAt (deals : List LDeal) (dt : String) : List LDeal :=
  deals.filter (fun d =>
    d.status == "6. Settled" &&
      (decide (bucketDate d ≠ "" ∧ jsTrim (bucketDate d) ≠ "")) &&
      bucketDate d == dt)

/-! ### Weekly threshold categories -/

/-- Per-week accumulator of the `weeklyGroups` reduce (page.tsx lines
348–389): `{ deals, totalDeals, settledDeals, convertedDeals }` (the
`weekStart` date itself is the key). -/
structure WeekGroup where
  deals : List Deal
  totalDeals : Nat
  settledDeals : Nat
  convertedDeals : Nat
deriving DecidableEq, Repr

/-- One element of `weeklyData` (page.tsx lines 392–407). -/
structure WeekStat where
  totalDeals : Nat
  rate : ℚ
  settledRate : ℚ
  conversionRate : ℚ
  settledDeals : Nat
  convertedDeals : Nat
  isAboveThreshold : Bool
deriving DecidableEq, Repr

/-- The `weeklyData` map body: derive per-week rates (guarded division)
and the threshold flag `data.totalDeals >= threshold`. -/
def mkWeekStat (threshold : Nat) (mode : Mode) (g : WeekGroup) : WeekStat :=
  let settledRate :=
    if 0 < g.totalDeals then ((g.settledDeals : ℚ) / g.totalDeals) * 100 else 0
  let conversionRate :=
    if 0 < g.totalDeals then ((g.convertedDeals : ℚ) / g.totalDeals) * 100 else 0
  { totalDeals := g.totalDeals
    rate := match mode with
      | .settled => settledRate
      | .conversion => conversionRate
    settledRate := settledRate
    conversionRate := conversionRate
    settledDeals := g.settledDeals
    convertedDeals := g.convertedDeals
    isAboveThreshold := threshold ≤ g.totalDeals }

/-- `weeklyData.filter(w => !w.isAboveThreshold)`. -/
def belowWeeks (wd : List WeekStat) : List WeekStat :=
  wd.filter (fun w => !w.isAboveThreshold)

/-- `weeklyData.filter(w => w.isAboveThreshold)`. -/
def aboveWeeks (wd : List WeekStat) : List WeekStat :=
  wd.filter (fun w => w.isAboveThreshold)

/-- Display rounding `parseFloat(x.toFixed(1))`, modelled as rounding to
the nearest tenth. -/
def roundTenth (x : ℚ) : ℚ := ((round (10 * x) : ℤ) : ℚ) / 10

/-- One bar of the threshold-category chart (page.tsx lines 422–444). -/
structure ThresholdCategory where
  category : String
  rate : ℚ
  weekCount : Nat
  totalDeals : Nat
  avgSettledRate : ℚ
  avgConversionRate : ℚ
deriving DecidableEq, Repr

/-- The category-chart assembly (page.tsx lines 409–446): compute the
two per-category averages and push a bar per non-empty category, below
first. Sums mirror the source's `reduce((sum, w) => sum + _, 0)`. -/
def thresholdCategories (threshold : Nat) (wd : List WeekStat) :
    List ThresholdCategory :=
  let below := belowWeeks wd
  let above := aboveWeeks wd
  let avgBelow :=
    if 0 < below.length then
      (below.foldl (fun s w => s + w.rate) (0 : ℚ)) / below.length else 0
  let avgAbove :=
    if 0 < above.length then
      (above.foldl (fun s w => s + w.rate) (0 : ℚ)) / above.length else 0
  (if 0 < below.length then
    [{ category := "< " ++ toString threshold
       rate := roundTenth avgBelow
       weekCount := below.length
       totalDeals := below.foldl (fun s w => s + w.totalDeals) 0
       avgSettledRate :=
         (below.foldl (fun s w => s + w.settledRate) (0 : ℚ)) / below.length
       avgConversionRate :=
         (below.foldl (fun s w => s + w.conversionRate) (0 : ℚ)) / below.length }]
   else []) ++
  (if 0 < above.length then
    [{ category := ">= " ++ toString threshold
       rate := roundTenth avgAbove
       weekCount := above.length
       totalDeals := above.foldl (fun s w => s + w.totalDeals) 0
       avgSettledRate :=
         (above.foldl (fun s w => s + w.settledRate) (0 : ℚ)) / above.length
       avgConversionRate :=
         (above.foldl (fun s w => s + w.conversionRate) (0 : ℚ)) / above.length }]
   else [])

/-! ### Pre-aggregation filter -/

/-- `new Date(dateStr).getFullYear().toString()` on a parsed date. -/
def yearString (c : CDate) : String := toString c.y

/-- `filteredDeals` (page.tsx lines 199–217): filter by broker unless
the sentinel `"all"` is selected, then by the year of `latest_date`
unless the year sentinel `"all"` is selected; a deal whose
`latest_date` is null fails the year test (`if (!deal.latest_date)
return false`). -/
def filteredDeals (deals : List Deal)
    (selectedBroker selectedYear : String) : List Deal :=
  let f1 :=
    if selectedBroker ≠ "all" then
      deals.filter (fun d => d.broker_name == selectedBroker)
    else deals
  if selectedYear ≠ "all" then
    f1.filter (fun d =>
      match d.latest_date with
      | none => false
      | some c => yearString c == selectedYear)
  else f1

/-- The per-broker accumulator invariant: settled ≤ converted ≤ row count. -/
def StatsInv (s : BrokerStats) : Prop :=
  s.settled ≤ s.converted ∧ s.converted ≤ s.deals.length

/-- The deal ids of the settled-filter rows landing in bucket `dt`. -/
def rowsIdsAt (deals : List LDeal) (dt : String) : List String :=
  (settledRowsAt deals dt).map (fun d => d.deal_id)

/-! ### Concrete sample inputs used by witnesses -/

/-- A settled deal for broker `"A"` (value 100). -/
def dealSettledA : Deal :=
  { deal_id := "1", deal_name := "n1", broker_name := "A",
    deal_value := 100, stage1Application := none,
    stage2Assessment := none, stage3Approval := none,
    stage4LoanDocument := none, stage5SettlementQueue := none,
    stage6Settled := some "2024-01-01", settlement2025 := none,
    settlement2024 := none, status := "6. Settled",
    latest_date := none, fromRednote := "No" }

/-- An application-stage deal for broker `"A"` (value 0). -/
def dealAppA : Deal :=
  { deal_id := "2", deal_name := "n2", broker_name := "A",
    deal_value := 0, stage1Application := some "x",
    stage2Assessment := none, stage3Approval := none,
    stage4LoanDocument := none, stage5SettlementQueue := none,
    stage6Settled := none, settlement2025 := none,
    settlement2024 := none, status := "1. Application",
    latest_date := none, fromRednote := "No" }

/-- The single `BrokerPerformance` entry the engine derives from
`[dealSettledA, dealAppA]`. -/
def perfSampleA : BrokerPerformance :=
  mkPerformance "A" (updateStats (updateStats emptyStats dealSettledA) dealAppA)

/-- A settled lead-sources row (id `"D1"`, date `"2024-01-01"`); uploading
it twice produces two identical rows sharing `deal_id` and date. -/
def sampleLDealDup : LDeal :=
  { deal_id := "D1", deal_name := "n1", broker_name := "A",
    status := "6. Settled", deal_value := 100, fromRednote := "No",
    fromLifeX := "No", lostDate := "", created_date := "2024-01-01",
    latest_date := none }

/-- Four weekly buckets with totals `[5, 25, 15, 40]`; the first week is
fully settled (per-week settled rate 100), the others have no settled
deals (rate 0). -/
def sampleWeekGroups : List WeekGroup :=
  [⟨[], 5, 5, 5⟩, ⟨[], 25, 0, 0⟩, ⟨[], 15, 0, 0⟩, ⟨[], 40, 0, 0⟩]

/-- A deal dated Sunday 2024-01-07. -/
def dealSunday : Deal :=
  { deal_id := "3", deal_name := "n3", broker_name := "A",
    deal_value := 0, stage1Application := none,
    stage2Assessment := none, stage3Approval := none,
    stage4LoanDocument := none, stage5SettlementQueue := none,
    stage6Settled := none, settlement2025 := none,
    settlement2024 := none, status := "Enquiry",
    latest_date := some ⟨2024, 1, 7⟩, fromRednote := "No" }

/-! ### Invariants of the grouping accumulator -/

lemma isConverted_of_isSettled {d : Deal} (h : isSettled d = true) :
    isConverted d = true := by
  simp only [isConverted, Bool.or_eq_true]
  tauto

lemma statsInv_empty : StatsInv emptyStats := by
  constructor <;> simp [emptyStats]

lemma statsInv_update {s : BrokerStats} (h : StatsInv s) (d : Deal) :
    StatsInv (updateStats s d) := by
  obtain ⟨h1, h2⟩ := h
  constructor
  · show s.settled + _ ≤ s.converted + _
    by_cases hs : isSettled d = true
    · rw [if_pos hs, if_pos (isConverted_of_isSettled hs)]
      omega
    · rw [if_neg hs]
      split <;> omega
  · show s.converted + _ ≤ (s.deals ++ [d]).length
    rw [List.length_append]
    split <;> simp <;> omega

lemma statsInv_insertDeal {acc : List (String × BrokerStats)}
    (h : ∀ e ∈ acc, StatsInv e.2) (d : Deal) :
    ∀ e ∈ insertDeal acc d, StatsInv e.2 := by
  induction acc with
  | nil =>
    intro e he
    simp only [insertDeal, List.mem_singleton] at he
    subst he
    exact statsInv_update statsInv_empty d
  | cons hd tl ih =>
    obtain ⟨k, s⟩ := hd
    intro e he
    simp only [insertDeal] at he
    split at he
    · rcases List.mem_cons.mp he with h1 | h1
      · subst h1
        exact statsInv_update (h (k, s) (List.mem_cons_self _ _)) d
      · exact h e (List.mem_cons_of_mem _ h1)
    · rcases List.mem_cons.mp he with h1 | h1
      · subst h1
        exact h (k, s) (List.mem_cons_self _ _)
      · exact ih (fun e' he' => h e' (List.mem_cons_of_mem _ he')) e h1

lemma statsInv_foldl (deals : List Deal) :
    ∀ acc, (∀ e ∈ acc, StatsInv e.2) →
      ∀ e ∈ deals.foldl insertDeal acc, StatsInv e.2 := by
  induction deals with
  | nil => intro acc h e he; exact h e he
  | cons d tl ih =>
    intro acc h e he
    exact ih (insertDeal acc d) (statsInv_insertDeal h d) e he

lemma statsInv_brokerStats {deals : List Deal} :
    ∀ e ∈ brokerStats deals, StatsInv e.2 :=
  statsInv_foldl deals [] (by intro e he; cases he)

lemma mem_brokerPerformance {deals : List Deal} {mode : Mode}
    {p : BrokerPerformance} (hp : p ∈ brokerPerformance deals mode) :
    ∃ e ∈ brokerStats deals, p = mkPerformance e.1 e.2 := by
  unfold brokerPerformance at hp
  split at hp
  · cases hp
  · have hp' := (List.mergeSort_perm _ (perfDesc mode)).mem_iff.mp hp
    obtain ⟨e, he, hpe⟩ := List.mem_map.mp hp'
    exact ⟨e, he, hpe.symm⟩

/-- C1: for every input deal set and mode, each `BrokerPerformance` entry
produced by the broker-performance aggregation satisfies
`settledDeals ≤ convertedDeals ≤ totalDeals`: a deal counted settled
(non-empty trimmed `"6. Settled"`) is also counted converted, and both
counters never exceed the group's row count. -/
theorem brokerPerformance_counts_mono (deals : List Deal) (mode : Mode)
    (p : BrokerPerformance) (hp : p ∈ brokerPerformance deals mode) :
    p.settledDeals ≤ p.convertedDeals ∧ p.convertedDeals ≤ p.totalDeals := by
  obtain ⟨e, he, hpe⟩ := mem_brokerPerformance hp
  have hinv := statsInv_brokerStats e he
  subst hpe
  exact ⟨hinv.1, hinv.2⟩

/-- Witness for C1: on the two-deal sample input (one settled deal and one
application-stage deal for broker `"A"`), the produced entry satisfies
both inequalities. -/
theorem brokerPerformance_counts_mono_witness :
    perfSampleA.settledDeals ≤ perfSampleA.convertedDeals ∧
      perfSampleA.convertedDeals ≤ perfSampleA.totalDeals :=
  brokerPerformance_counts_mono [dealSettledA, dealAppA] Mode.settled
    perfSampleA (by
      unfold brokerPerformance
      rw [if_neg (by simp)]
      exact (List.mergeSort_perm _ _).mem_iff.mpr (List.mem_singleton.mpr rfl))

/-! ### Rate bounds -/

lemma ratePart_nonneg {c n : Nat} :
    0 ≤ (if 0 < n then ((c : ℚ) / n) * 100 else 0) := by
  split
  · positivity
  · exact le_refl 0

lemma ratePart_le_100 {c n : Nat} (h : c ≤ n) :
    (if 0 < n then ((c : ℚ) / n) * 100 else 0) ≤ 100 := by
  split
  · next hn =>
    have hn' : (0 : ℚ) < n := by exact_mod_cast hn
    have hdiv : (c : ℚ) / n ≤ 1 := (div_le_one hn').mpr (by exact_mod_cast h)
    nlinarith
  · norm_num

/-- C7: for every input deal set and mode, every rate produced by the
broker-performance aggregation lies in `[0, 100]`, and when the
total-deal denominator is `0` the rate is `0` (the divide-by-zero guard
fires; no NaN is possible in the rational model). -/
theorem brokerPerformance_rates_bounded (deals : List Deal) (mode : Mode)
    (p : BrokerPerformance) (hp : p ∈ brokerPerformance deals mode) :
    (0 ≤ p.settledRate ∧ p.settledRate ≤ 100) ∧
      (0 ≤ p.conversionRate ∧ p.conversionRate ≤ 100) ∧
      (p.totalDeals = 0 → p.settledRate = 0 ∧ p.conversionRate = 0) := by
  obtain ⟨e, he, hpe⟩ := mem_brokerPerformance hp
  have hinv := statsInv_brokerStats e he
  have hsc : e.2.settled ≤ e.2.deals.length := le_trans hinv.1 hinv.2
  subst hpe
  refine ⟨⟨ratePart_nonneg, ratePart_le_100 hsc⟩,
    ⟨ratePart_nonneg, ratePart_le_100 hinv.2⟩, ?_⟩
  intro h0
  have h0' : e.2.deals.length = 0 := h0
  constructor <;> simp [mkPerformance, h0']

/-- Witness for C7: on the two-deal sample input, the produced entry's
rates are within bounds. -/
theorem brokerPerformance_rates_bounded_witness :
    (0 ≤ perfSampleA.settledRate ∧ perfSampleA.settledRate ≤ 100) ∧
      (0 ≤ perfSampleA.conversionRate ∧ perfSampleA.conversionRate ≤ 100) ∧
      (perfSampleA.totalDeals = 0 →
        perfSampleA.settledRate = 0 ∧ perfSampleA.conversionRate = 0) :=
  brokerPerformance_rates_bounded [dealSettledA, dealAppA] Mode.settled
    perfSampleA (by
      unfold brokerPerformance
      rw [if_neg (by simp)]
      exact (List.mergeSort_perm _ _).mem_iff.mpr (List.mem_singleton.mpr rfl))

/-! ### Sort order -/

lemma perfDesc_trans (m : Mode) : ∀ a b c : BrokerPerformance,
    perfDesc m a b → perfDesc m b c → perfDesc m a c := by
  intro a b c hab hbc
  simp only [perfDesc, decide_eq_true_eq] at *
  exact le_trans hbc hab

lemma perfDesc_total (m : Mode) : ∀ a b : BrokerPerformance,
    perfDesc m a b || perfDesc m b a := by
  intro a b
  simp only [perfDesc, Bool.or_eq_true, decide_eq_true_eq]
  exact le_total (perfKey m b) (perfKey m a)

lemma brokerPerformance_pairwise (deals : List Deal) (m : Mode) :
    (brokerPerformance deals m).Pairwise
      (fun a b => perfKey m b ≤ perfKey m a) := by
  unfold brokerPerformance
  split
  · exact List.Pairwise.nil
  · exact (List.sorted_mergeSort (perfDesc_trans m) (perfDesc_total m) _).imp
      (fun h => by simpa [perfDesc, decide_eq_true_eq] using h)

/-- C8: the broker-performance list is sorted in descending order by
`settledValue` when `mode = settled` and by `conversionRate` when
`mode = conversion` (ties left in encounter order by the stable sort). -/
theorem brokerPerformance_sorted (deals : List Deal) :
    (brokerPerformance deals Mode.settled).Pairwise
        (fun a b => b.settledValue ≤ a.settledValue) ∧
      (brokerPerformance deals Mode.conversion).Pairwise
        (fun a b => b.conversionRate ≤ a.conversionRate) :=
  ⟨brokerPerformance_pairwise deals Mode.settled,
    brokerPerformance_pairwise deals Mode.conversion⟩

/-- C9: `filterByMinimumDeals` keeps exactly the entries with
`totalDeals ≥ minDeals`, and is monotone in `minDeals`: a larger cutoff
never enlarges the output. -/
theorem filterByMinimumDeals_spec (ps : List BrokerPerformance)
    (m₁ m₂ : Nat) (p : BrokerPerformance) :
    (p ∈ filterByMinimumDeals ps m₁ ↔ p ∈ ps ∧ m₁ ≤ p.totalDeals) ∧
      (m₁ ≤ m₂ →
        (filterByMinimumDeals ps m₂).length ≤
          (filterByMinimumDeals ps m₁).length) := by
  constructor
  · simp [filterByMinimumDeals, List.mem_filter]
  · intro h12
    exact (List.monotone_filter_right ps
      (fun a ha => by
        simp only [decide_eq_true_eq] at *
        exact le_trans h12 ha)).length_le

/-- Witness for C9: with cutoffs 1 ≤ 2 on a singleton performance list,
the larger cutoff yields a list no longer than the smaller one. -/
theorem filterByMinimumDeals_spec_witness :
    (filterByMinimumDeals [perfSampleA] 2).length ≤
      (filterByMinimumDeals [perfSampleA] 1).length :=
  (filterByMinimumDeals_spec [perfSampleA] 1 2 perfSampleA).2 (by decide)

/-! ### Rolling-window statistics: the two variants -/

lemma windowDays_length (lo hi : Int) :
    (windowDays lo hi).length = (hi + 1 - lo).toNat := by
  rw [windowDays, List.length_map, List.length_range]

lemma lookupCount_single (x : Int) (v : ℚ) (d : Int) :
    lookupCount [(x, v)] d = if d = x then v else 0 := by
  by_cases h : x = d
  · subst h
    simp [lookupCount, List.find?]
  · have hbeq : (x == d) = false := by simpa using h
    simp [lookupCount, List.find?, hbeq, Ne.symm h]

lemma foldl_lookup_single (x : Int) (v : ℚ) :
    ∀ (l : List Int) (init : ℚ),
      l.foldl (fun s d => s + lookupCount [(x, v)] d) init =
        init + v * (l.count x : ℚ) := by
  intro l
  induction l with
  | nil => intro init; simp
  | cons a t ih =>
    intro init
    rw [List.foldl_cons, ih, lookupCount_single]
    by_cases h : a = x
    · subst h
      rw [List.count_cons_self, if_pos rfl]
      push_cast
      ring
    · rw [List.count_cons_of_ne (fun he => h he.symm), if_neg h]
      ring

/-- C2 is contradicted by the code: the "full-window" rolling-average
variant `calculate30DayRollingSum` can never return the null sentinel,
because its `dayCount` counts the 31 calendar days iterated over the
window (not days of accumulated history), so `dayCount >= 30` always
holds; in particular on the very first day of history (a map holding a
single count of 5 at the target date) it returns `5/30` instead of
null. -/
theorem calculate30DayRollingSum_never_null :
    (∀ (m : List (Int × ℚ)) (t : Int),
        calculate30DayRollingSum m t =
          some ((windowDays (t - 30) t).foldl
            (fun s d => s + lookupCount m d) 0 / 30)) ∧
      calculate30DayRollingSum [((0 : Int), (5 : ℚ))] 0 = some (5 / 30) := by
  have hgen : ∀ (m : List (Int × ℚ)) (t : Int),
      calculate30DayRollingSum m t =
        some ((windowDays (t - 30) t).foldl
          (fun s d => s + lookupCount m d) 0 / 30) := by
    intro m t
    unfold calculate30DayRollingSum
    rw [if_pos]
    rw [windowDays_length]
    omega
  refine ⟨hgen, ?_⟩
  rw [hgen]
  have hc : ((windowDays ((0 : Int) - 30) 0).count 0) = 1 := by decide
  rw [foldl_lookup_single, hc]
  norm_num

lemma foldl_windowSum (t : Int) :
    ∀ (m : List (Int × ℚ)) (init : ℚ),
      m.foldl
          (fun s p => if t - 30 ≤ p.1 ∧ p.1 ≤ t then s + p.2 else s) init =
        init + windowSumSpec m t := by
  intro m
  induction m with
  | nil => intro init; simp [windowSumSpec]
  | cons p ps ih =>
    intro init
    simp only [List.foldl_cons, windowSumSpec, List.filter_cons]
    by_cases h : t - 30 ≤ p.1 ∧ p.1 ≤ t
    · rw [if_pos h, if_pos (decide_eq_true h), List.map_cons, List.sum_cons]
      have hih := ih (init + p.2)
      simp only [windowSumSpec] at hih
      rw [hih]
      ring
    · rw [if_neg h, if_neg (by simpa using h)]
      have hih := ih init
      simp only [windowSumSpec] at hih
      rw [hih]

/-- C3: the fixed-divisor rolling-average variant never returns null (it
is a total function into ℚ): with no dates at all it returns `0`, and
otherwise it returns the sum of the counts dated within
`[targetDate − 30, targetDate]` inclusive divided by 30 — not by the
number of dates present; a single count of 5 at the target date with
nothing else yields `5/30`. -/
theorem calculate30DayRollingAvg_spec (m : List (Int × ℚ)) (t : Int)
    (dates : List Int) :
    (dates ≠ [] →
        calculate30DayRollingAvg m t dates = windowSumSpec m t / 30) ∧
      calculate30DayRollingAvg m t [] = 0 ∧
      calculate30DayRollingAvg [] t dates = 0 ∧
      calculate30DayRollingAvg [(t, 5)] t [t] = 5 / 30 := by
  have hne : ∀ (m' : List (Int × ℚ)) (dates' : List Int), dates' ≠ [] →
      calculate30DayRollingAvg m' t dates' = windowSumSpec m' t / 30 := by
    intro m' dates' h
    unfold calculate30DayRollingAvg
    rw [if_neg (by simpa using h), foldl_windowSum]
    rw [zero_add]
  refine ⟨hne m dates, ?_, ?_, ?_⟩
  · unfold calculate30DayRollingAvg
    simp
  · unfold calculate30DayRollingAvg
    split
    · rfl
    · simp
  · rw [hne [(t, 5)] [t] (by simp)]
    have h5 : windowSumSpec [(t, 5)] t = 5 := by
      unfold windowSumSpec
      rw [List.filter_cons, if_pos (decide_eq_true (by constructor <;> omega))]
      simp
    rw [h5]

/-- Witness for C3: the fixed-divisor variant evaluated with one date
present equals the spec-side window sum divided by 30. -/
theorem calculate30DayRollingAvg_spec_witness :
    calculate30DayRollingAvg [((0 : Int), (5 : ℚ))] 0 [0] =
      windowSumSpec [((0 : Int), (5 : ℚ))] 0 / 30 :=
  (calculate30DayRollingAvg_spec [((0 : Int), (5 : ℚ))] 0 [0]).1 (by simp)

/-! ### Week bucketing -/

/-- C6: week bucketing maps every deal date to the Monday starting its
ISO week: the bucket key has `getDay` 1 (Monday), lies at most 6 days
before the deal date, and a Sunday (`getDay` 0) rolls back exactly 6
days; in particular Sunday 2024-01-07 buckets into the week starting
Monday 2024-01-01. -/
theorem weekStart_monday (d : Deal) (c : CDate)
    (h : d.latest_date = some c) :
    dealWeekKey d = some (weekStart (daysFromCivil c)) ∧
      jsGetDay (weekStart (daysFromCivil c)) = 1 ∧
      weekStart (daysFromCivil c) ≤ daysFromCivil c ∧
      daysFromCivil c - weekStart (daysFromCivil c) ≤ 6 ∧
      (jsGetDay (daysFromCivil c) = 0 →
        weekStart (daysFromCivil c) = daysFromCivil c - 6) ∧
      jsGetDay (daysFromCivil ⟨2024, 1, 7⟩) = 0 ∧
      weekStart (daysFromCivil ⟨2024, 1, 7⟩) = daysFromCivil ⟨2024, 1, 1⟩ := by
  refine ⟨by simp [dealWeekKey, h], ?_, ?_, ?_, ?_, by decide, by decide⟩
  · simp only [jsGetDay, weekStart]
    split <;> omega
  · simp only [jsGetDay, weekStart]
    split <;> omega
  · simp only [jsGetDay, weekStart]
    split <;> omega
  · intro h0
    simp only [jsGetDay, weekStart] at *
    split <;> omega

/-- Witness for C6: the Sunday-dated sample deal buckets into the Monday
week start. -/
theorem weekStart_monday_witness :
    dealWeekKey dealSunday = some (weekStart (daysFromCivil ⟨2024, 1, 7⟩)) ∧
      jsGetDay (weekStart (daysFromCivil ⟨2024, 1, 7⟩)) = 1 ∧
      weekStart (daysFromCivil ⟨2024, 1, 7⟩) ≤ daysFromCivil ⟨2024, 1, 7⟩ ∧
      daysFromCivil ⟨2024, 1, 7⟩ - weekStart (daysFromCivil ⟨2024, 1, 7⟩) ≤ 6 ∧
      (jsGetDay (daysFromCivil ⟨2024, 1, 7⟩) = 0 →
        weekStart (daysFromCivil ⟨2024, 1, 7⟩) = daysFromCivil ⟨2024, 1, 7⟩ - 6) ∧
      jsGetDay (daysFromCivil ⟨2024, 1, 7⟩) = 0 ∧
      weekStart (daysFromCivil ⟨2024, 1, 7⟩) = daysFromCivil ⟨2024, 1, 1⟩ :=
  weekStart_monday dealSunday ⟨2024, 1, 7⟩ rfl

/-! ### Weekly threshold categories -/

lemma foldl_add_map {α : Type} (f : α → ℚ) :
    ∀ (l : List α) (init : ℚ),
      l.foldl (fun s w => s + f w) init = init + (l.map f).sum := by
  intro l
  induction l with
  | nil => intro init; simp
  | cons a t ih =>
    intro init
    rw [List.foldl_cons, ih, List.map_cons, List.sum_cons]
    ring

lemma avg_mul_count {l : List WeekStat} (f : WeekStat → ℚ)
    (h : 0 < l.length) :
    (l.length : ℚ) * ((l.foldl (fun s w => s + f w) (0 : ℚ)) / l.length) =
      (l.map f).sum := by
  rw [foldl_add_map, zero_add, mul_comm, div_mul_cancel₀]
  exact Nat.cast_ne_zero.mpr (by omega)

/-- C5: the weekly threshold-category chart partitions weeks by total
deal count (`isAboveThreshold = false` exactly when `totalDeals <
threshold`), emits at most two categories, omits any category with zero
contributing weeks, and reports per category the arithmetic mean of the
per-week rates (`weekCount · avg = Σ` per-week rates, for both rate
kinds); on weekly totals `[5, 25, 15, 40]` with threshold 20 the below
category has 2 contributing weeks with mean settled rate 50 and the
at/above category has 2 with mean 0 — and 50 differs from the rate
recomputed from the pooled totals of those weeks, `(5+0)/(5+15)·100 =
25`. -/
theorem thresholdCategories_spec (thr : Nat) (mode : Mode)
    (gs : List WeekGroup) :
    (∀ w ∈ gs.map (mkWeekStat thr mode),
        (w.isAboveThreshold = false ↔ w.totalDeals < thr)) ∧
      (thresholdCategories thr (gs.map (mkWeekStat thr mode))).length ≤ 2 ∧
      (∀ c ∈ thresholdCategories thr (gs.map (mkWeekStat thr mode)),
        0 < c.weekCount) ∧
      (∀ c ∈ thresholdCategories thr (gs.map (mkWeekStat thr mode)),
        (c.weekCount = (belowWeeks (gs.map (mkWeekStat thr mode))).length ∧
            (c.weekCount : ℚ) * c.avgSettledRate =
              ((belowWeeks (gs.map (mkWeekStat thr mode))).map
                (fun w => w.settledRate)).sum ∧
            (c.weekCount : ℚ) * c.avgConversionRate =
              ((belowWeeks (gs.map (mkWeekStat thr mode))).map
                (fun w => w.conversionRate)).sum) ∨
          (c.weekCount = (aboveWeeks (gs.map (mkWeekStat thr mode))).length ∧
            (c.weekCount : ℚ) * c.avgSettledRate =
              ((aboveWeeks (gs.map (mkWeekStat thr mode))).map
                (fun w => w.settledRate)).sum ∧
            (c.weekCount : ℚ) * c.avgConversionRate =
              ((aboveWeeks (gs.map (mkWeekStat thr mode))).map
                (fun w => w.conversionRate)).sum)) ∧
      ((thresholdCategories 20
          (sampleWeekGroups.map (mkWeekStat 20 Mode.settled))).map
        (fun c => (c.weekCount, c.avgSettledRate)) = [(2, 50), (2, 0)]) ∧
      ((50 : ℚ) ≠ ((5 : ℚ) + 0) / ((5 : ℚ) + 15) * 100) := by
  refine ⟨?_, ?_, ?_, ?_, ?_, by norm_num⟩
  · intro w hw
    obtain ⟨g, _, hg⟩ := List.mem_map.mp hw
    subst hg
    simp [mkWeekStat]
  · unfold thresholdCategories
    rw [List.length_append]
    have h1 : ∀ (l : List ThresholdCategory), (l = [] → l.length ≤ 1) := by
      intro l h; simp [h]
    split <;> split <;> simp
  · intro c hc
    unfold thresholdCategories at hc
    rcases List.mem_append.mp hc with h | h <;>
      [skip; skip] <;>
      · split at h
        · next hpos =>
          rcases List.mem_singleton.mp h with rfl
          simpa using hpos
        · cases h
  · intro c hc
    unfold thresholdCategories at hc
    rcases List.mem_append.mp hc with h | h
    · split at h
      · next hpos =>
        rcases List.mem_singleton.mp h with rfl
        left
        refine ⟨rfl, ?_, ?_⟩ <;> exact avg_mul_count _ hpos
      · cases h
    · split at h
      · next hpos =>
        rcases List.mem_singleton.mp h with rfl
        right
        refine ⟨rfl, ?_, ?_⟩ <;> exact avg_mul_count _ hpos
      · cases h
  · norm_num [thresholdCategories, belowWeeks, aboveWeeks, mkWeekStat,
      sampleWeekGroups, List.filter]

/-- Witness for C5: the first sample week (total 5) is categorized below
threshold 20. -/
theorem thresholdCategories_spec_witness :
    ((mkWeekStat 20 Mode.settled ⟨[], 5, 5, 5⟩).isAboveThreshold = false ↔
      (mkWeekStat 20 Mode.settled ⟨[], 5, 5, 5⟩).totalDeals < 20) :=
  (thresholdCategories_spec 20 Mode.settled sampleWeekGroups).1
    (mkWeekStat 20 Mode.settled ⟨[], 5, 5, 5⟩)
    (List.mem_map_of_mem _ (by simp [sampleWeekGroups]))

/-! ### Distinct-id date counting -/

lemma lookupIds_nil (dt : String) : lookupIds [] dt = [] := rfl

lemma lookupIds_cons (k : String) (ids : List String)
    (rest : List (String × List String)) (dt : String) :
    lookupIds ((k, ids) :: rest) dt =
      if k = dt then ids else lookupIds rest dt := by
  unfold lookupIds
  by_cases h : k = dt
  · rw [List.find?_cons_of_pos _ (by simpa using h), if_pos h]
  · rw [List.find?_cons_of_neg _ (by simpa using h), if_neg h]

lemma lookupNat_cons (k : String) (n : Nat)
    (rest : List (String × Nat)) (dt : String) :
    lookupNat ((k, n) :: rest) dt =
      if k = dt then n else lookupNat rest dt := by
  unfold lookupNat
  by_cases h : k = dt
  · rw [List.find?_cons_of_pos _ (by simpa using h), if_pos h]
  · rw [List.find?_cons_of_neg _ (by simpa using h), if_neg h]

lemma lookupIds_addToDateSet (date id dt : String) :
    ∀ acc : List (String × List String),
      lookupIds (addToDateSet acc date id) dt =
        if dt = date then insertIdOnce (lookupIds acc dt) id
        else lookupIds acc dt := by
  intro acc
  induction acc with
  | nil =>
    unfold addToDateSet
    rw [lookupIds_cons, lookupIds_nil]
    by_cases h : dt = date
    · rw [if_pos h.symm, if_pos h]
      rfl
    · rw [if_neg (fun he => h he.symm), if_neg h]
  | cons p rest ih =>
    obtain ⟨k, ids⟩ := p
    unfold addToDateSet
    by_cases hk : k = date
    · rw [if_pos hk]
      subst hk
      rw [lookupIds_cons, lookupIds_cons]
      by_cases h : k = dt
      · rw [if_pos h, if_pos h, if_pos h.symm]
      · rw [if_neg h, if_neg h, if_neg (fun he => h he.symm)]
    · rw [if_neg hk]
      rw [lookupIds_cons, lookupIds_cons, ih]
      by_cases h : k = dt
      · have hd : ¬ dt = date := fun he => hk (h.trans he)
        rw [if_pos h, if_pos h, if_neg hd]
      · rw [if_neg h, if_neg h]

lemma insertIdOnce_toFinset (ids : List String) (id : String) :
    (insertIdOnce ids id).toFinset = insert id ids.toFinset := by
  unfold insertIdOnce
  split
  · next h =>
    rw [Finset.insert_eq_self.mpr (List.mem_toFinset.mpr h)]
  · rw [List.toFinset_append]
    simp [Finset.union_comm, Finset.insert_eq]

lemma insertIdOnce_nodup {ids : List String} (h : ids.Nodup) (id : String) :
    (insertIdOnce ids id).Nodup := by
  unfold insertIdOnce
  split
  · exact h
  · next hnot => simp [List.nodup_append, h, hnot]

lemma settledByDate_append (deals : List LDeal) (d : LDeal) :
    settledByDate (deals ++ [d]) =
      if d.status == "6. Settled" then
        (if bucketDate d ≠ "" ∧ jsTrim (bucketDate d) ≠ "" then
          addToDateSet (settledByDate deals) (bucketDate d) d.deal_id
        else settledByDate deals)
      else settledByDate deals := by
  unfold settledByDate
  rw [List.filter_append, List.foldl_append]
  by_cases h : (d.status == "6. Settled") = true
  · rw [if_pos h]
    rw [List.filter_cons, if_pos h, List.filter_nil, List.foldl_cons,
      List.foldl_nil]
  · rw [if_neg h]
    rw [List.filter_cons, if_neg h, List.filter_nil, List.foldl_nil]

lemma rowsIdsAt_append (deals : List LDeal) (d : LDeal) (dt : String) :
    rowsIdsAt (deals ++ [d]) dt =
      rowsIdsAt deals dt ++
        (if d.status == "6. Settled" then
          (if bucketDate d ≠ "" ∧ jsTrim (bucketDate d) ≠ "" then
            (if bucketDate d = dt then [d.deal_id] else [])
          else [])
        else []) := by
  unfold rowsIdsAt settledRowsAt
  rw [List.filter_append, List.map_append]
  congr 1
  rw [List.filter_cons, List.filter_nil]
  by_cases h1 : (d.status == "6. Settled") = true
  · by_cases h2 : bucketDate d ≠ "" ∧ jsTrim (bucketDate d) ≠ ""
    · by_cases h3 : bucketDate d = dt
      · rw [if_pos (by simp [h1, h3]; exact h3 ▸ h2), if_pos h1, if_pos h2,
          if_pos h3]
        rfl
      · rw [if_neg (by simp [h3]), if_pos h1, if_pos h2, if_neg h3]
        rfl
    · rw [if_neg (by simp [h2]), if_pos h1, if_neg h2]
      rfl
  · rw [if_neg (by simp [h1]), if_neg h1]
    rfl

lemma settledByDate_ids (deals : List LDeal) (dt : String) :
    (lookupIds (settledByDate deals) dt).Nodup ∧
      (lookupIds (settledByDate deals) dt).toFinset =
        (rowsIdsAt deals dt).toFinset := by
  induction deals using List.reverseRecOn with
  | nil => simp [settledByDate, lookupIds, rowsIdsAt, settledRowsAt]
  | append_singleton deals d ih =>
    rw [settledByDate_append, rowsIdsAt_append]
    by_cases hs : (d.status == "6. Settled") = true
    · rw [if_pos hs, if_pos hs]
      by_cases hb : bucketDate d ≠ "" ∧ jsTrim (bucketDate d) ≠ ""
      · rw [if_pos hb, if_pos hb, lookupIds_addToDateSet]
        by_cases hdt : dt = bucketDate d
        · rw [if_pos hdt, if_pos hdt.symm]
          refine ⟨insertIdOnce_nodup ih.1 d.deal_id, ?_⟩
          rw [insertIdOnce_toFinset, ih.2, List.toFinset_append]
          ext x
          simp [or_comm]
        · rw [if_neg hdt, if_neg (fun he => hdt he.symm)]
          simpa using ih
      · rw [if_neg hb, if_neg hb]
        simpa using ih
    · rw [if_neg hs, if_neg hs]
      simpa using ih

lemma lookupNat_map_length (acc : List (String × List String))
    (dt : String) :
    lookupNat (acc.map (fun p => (p.1, p.2.length))) dt =
      (lookupIds acc dt).length := by
  induction acc with
  | nil => rfl
  | cons p rest ih =>
    obtain ⟨k, ids⟩ := p
    rw [List.map_cons, lookupNat_cons, lookupIds_cons]
    by_cases h : k = dt
    · rw [if_pos h, if_pos h]
    · rw [if_neg h, if_neg h, ih]

/-- C4 (amended): in the uploaded-data lead-sources chart builder
(page.tsx), the per-date counts fed to the rolling-average computation
are the number of DISTINCT `deal_id` values bucketed at that date —
two rows sharing `deal_id` and date contribute one (in particular the
duplicated sample row counts once). In the sample-data variant
(`src/unnamed/part_000`) the counts are raw rows instead; see the
counterexample. -/
theorem settledCountByDate_distinct (deals : List LDeal) (dt : String) :
    lookupNat (settledCountByDate deals) dt =
        (rowsIdsAt deals dt).toFinset.card ∧
      lookupNat (settledCountByDate [sampleLDealDup, sampleLDealDup])
          "2024-01-01" = 1 := by
  constructor
  · unfold settledCountByDate
    rw [lookupNat_map_length]
    have h := settledByDate_ids deals dt
    rw [← h.2]
    exact (List.toFinset_card_of_nodup h.1).symm
  · rfl

/-- C4 as frozen is false for the sample-data lead-sources page: its
`settledByDate` counts raw rows, so two rows sharing `deal_id` `"D1"`
and date `"2024-01-01"` contribute 2 (not 1) to that date's count. -/
theorem settledByDateRaw_double_counts :
    lookupNat (settledByDateRaw [sampleLDealDup, sampleLDealDup])
      "2024-01-01" = 2 := rfl

/-! ### Pre-aggregation year filter -/

/-- C10: with a specific year selected (any value other than the
sentinel `"all"`), the pre-aggregation filter excludes every deal whose
`latest_date` is null; with the year sentinel `"all"`, a null-dated
deal is kept iff it passes the broker filter. -/
theorem filteredDeals_year_null (deals : List Deal) (b y : String) :
    (y ≠ "all" → ∀ d ∈ filteredDeals deals b y, d.latest_date.isSome) ∧
      (∀ d ∈ deals, d.latest_date = none →
        (d ∈ filteredDeals deals b "all" ↔
          b = "all" ∨ d.broker_name = b)) := by
  constructor
  · intro hy d hd
    unfold filteredDeals at hd
    rw [if_pos hy] at hd
    have hmem := (List.mem_filter.mp hd).2
    cases hld : d.latest_date with
    | none =>
      rw [hld] at hmem
      simp at hmem
    | some c => simp [hld]
  · intro d hd hnone
    unfold filteredDeals
    rw [if_neg (by simp)]
    by_cases hb : b = "all"
    · subst hb
      rw [if_neg (by simp)]
      simp [hd]
    · rw [if_pos hb]
      simp [List.mem_filter, hd, hb, beq_iff_eq]

/-- Witness for C10: a null-dated deal is dropped when year `"2024"` is
selected, and kept under the sentinel `"all"` with the broker sentinel
`"all"`. -/
theorem filteredDeals_year_null_witness :
    (∀ d ∈ filteredDeals [dealSettledA] "all" "2024",
        d.latest_date.isSome) ∧
      (dealSettledA ∈ filteredDeals [dealSettledA] "all" "all" ↔
        "all" = "all" ∨ dealSettledA.broker_name = "all") :=
  ⟨(filteredDeals_year_null [dealSettledA] "all" "2024").1 (by decide),
    (filteredDeals_year_null [dealSettledA] "all" "all").2 dealSettledA
      (by simp) rfl⟩

end BrokerAnalysis
